import Mathlib

/-!
Verification of the conversation-agent core of this repository: the bounded
conversation memory (`src/utils/memory.py`), the tool-call interpreter and chat
orchestration (`src/agent.py`), and the calculator tool
(`src/tools/calculator.py`).

Modelling conventions (shallow embedding):
* Python strings are modelled as `String` / `List Char`; all scanning and
  splitting routines are re-implemented structurally over `List Char` so that
  every definition evaluates inside the kernel.
* `datetime.now()` is passed in explicitly as a timestamp argument.
* Whitespace sets (`str.strip`, regex `\s`) are modelled by the ASCII
  whitespace characters; regex `\w` by ASCII alphanumerics plus the underscore.
* Fallible operations return `Option` / `Except`; a Python exception is an
  `Except.error` carrying the message.
-/

namespace AgentSpec

/-- The single-quote character, written via its code point. -/
def sqc : Char := Char.ofNat 39

/-- The double-quote character, written via its code point. -/
def dqc : Char := Char.ofNat 34

/-- Python whitespace for `str.strip()` and regex `\s`, ASCII part:
space, tab, newline, carriage return, vertical tab, form feed. -/
def isPyWs (c : Char) : Bool :=
  c == ' ' || c == Char.ofNat 9 || c == Char.ofNat 10 ||
  c == Char.ofNat 13 || c == Char.ofNat 11 || c == Char.ofNat 12

/-- Python `str.strip()` on a character list: drop leading and trailing
whitespace runs. -/
def trimL (cs : List Char) : List Char :=
  ((cs.dropWhile isPyWs).reverse.dropWhile isPyWs).reverse

/-- Python `str.split(sep)` for a one-character separator: splitting the empty
string yields `[[]]`, matching `"".split(",") == [""]`. -/
def splitListOn (sep : Char) : List Char → List (List Char)
  | [] => [[]]
  | c :: cs =>
    match splitListOn sep cs with
    | [] => [[]]
    | h :: t => if c == sep then [] :: h :: t else (c :: h) :: t

/-- Python `s.split(sep, 1)` for `sep = '='`, returning `none` when the
separator does not occur (the caller tests `'=' in param` first). -/
def splitFirstEq : List Char → Option (List Char × List Char)
  | [] => none
  | c :: cs =>
    if c == '=' then some ([], cs)
    else
      match splitFirstEq cs with
      | none => none
      | some (k, v) => some (c :: k, v)

/-- Membership of a character in the quote set used by
`str.strip('"\x27')` in `Agent._handle_tool_call`. -/
def isQuote (c : Char) : Bool := c == dqc || c == sqc

/-- Python `str.strip(chars)` for the quote set: removes the maximal leading
run and the maximal trailing run of quote characters. -/
def stripQuotesRun (cs : List Char) : List Char :=
  ((cs.dropWhile isQuote).reverse.dropWhile isQuote).reverse

/-- Python `dict` assignment `d[k] = v` folded over an association list:
an existing key keeps its position and gets the new value, a new key is
appended at the end (insertion order). -/
def dictInsert {α β : Type} [BEq α] (d : List (α × β)) (k : α) (v : β) :
    List (α × β) :=
  if d.any (fun p => p.1 == k) then
    d.map (fun p => if p.1 == k then (k, v) else p)
  else d ++ [(k, v)]

/-- A conversation message as built by `ConversationMemory.add_message`:
`{"role": role, "content": content, "timestamp": datetime.now().isoformat()}`. -/
structure Message where
  role : String
  content : String
  timestamp : String
deriving DecidableEq, Repr

/-- The state of `ConversationMemory` (`src/utils/memory.py`): the cap
`max_history`, the ordered message list, and the metadata dict (modelled as a
string-to-string association list holding `created_at` / `updated_at`). -/
structure ConversationMemory where
  max_history : Nat
  messages : List Message
  metadata : List (String × String)
deriving DecidableEq, Repr

namespace ConversationMemory

/-- A fresh `ConversationMemory(max_history=H)` created at time `t0`. -/
def init (H : Nat) (t0 : String) : ConversationMemory :=
  ⟨H, [], [("created_at", t0), ("updated_at", t0)]⟩

/-- Python slice `xs[-k:]`: for `k = 0` this is `xs[0:]`, the whole list
(the `-0` quirk); for `k ≥ 1` it keeps the last `min k (length xs)`
elements. -/
def sliceLast (k : Nat) (xs : List Message) : List Message :=
  if k == 0 then xs else xs.drop (xs.length - k)

/-- Embedding of `ConversationMemory.add_message(role, content)` at time `ts`: append the
new message, refresh `updated_at`, then trim to the slice
`messages[-max_history*2:]` whenever the length exceeds `max_history * 2`. -/
def add_message (m : ConversationMemory) (role content ts : String) :
    ConversationMemory :=
  let msgs := m.messages ++ [⟨role, content, ts⟩]
  let msgs2 :=
    if msgs.length > m.max_history * 2 then sliceLast (m.max_history * 2) msgs
    else msgs
  { m with messages := msgs2, metadata := dictInsert m.metadata "updated_at" ts }

/-- Embedding of `ConversationMemory.get_context()`: the ordered `(role, content)` pairs,
timestamps stripped. -/
def get_context (m : ConversationMemory) : List (String × String) :=
  m.messages.map fun msg => (msg.role, msg.content)

end ConversationMemory

/-- The parsed content of a conversation JSON file, at the level of values:
`json.load` yields a dict from which `load` reads `data.get("metadata", {})`
and `data.get("messages", [])`; an absent key is `none` here.  The textual
round trip of `json.dump` / `json.load` on these values is assumed faithful
(Python standard library). -/
structure SaveData where
  metadata : Option (List (String × String))
  messages : Option (List Message)
deriving DecidableEq

/-- A stored file, as seen through `json.load`: either well-formed JSON
holding a `SaveData`, or malformed content on which `json.load` raises. -/
inductive FileContent where
  | malformed : FileContent
  | wellFormed : SaveData → FileContent
deriving DecidableEq

/-- The file system, mapping each path to its content when the file exists. -/
def FS : Type := String → Option FileContent

/-- Errors raised by `save` / `load`: `FileNotFoundError` (missing path on
`open`, or `os.makedirs('')` on a bare filename) and `json.JSONDecodeError`. -/
inductive PersistError where
  | fileNotFound
  | jsonDecodeError
deriving DecidableEq, Repr

/-- Whether `os.path.dirname(path)` is nonempty, i.e. the path contains a
separator.  `os.makedirs(os.path.dirname(path), exist_ok=True)` raises
`FileNotFoundError` exactly when the dirname is the empty string. -/
def hasDirPart (p : String) : Bool := p.toList.any (fun c => c == '/')

namespace ConversationMemory

/-- Embedding of `ConversationMemory.save(filepath)`: create the parent directory, then
write `{"metadata": ..., "messages": ...}` to the path.  On a bare filename
(`os.path.dirname` empty) `os.makedirs('')` raises `FileNotFoundError` before
anything is written. -/
def save (fs : FS) (path : String) (m : ConversationMemory) :
    FS × Option PersistError :=
  if hasDirPart path then
    (fun q => if q == path
       then some (.wellFormed ⟨some m.metadata, some m.messages⟩) else fs q,
     none)
  else (fs, some .fileNotFound)

/-- Embedding of `ConversationMemory.load(filepath)`: read and parse the whole file, then
replace `metadata` and `messages` wholesale (with `{}` / `[]` defaults for
missing keys).  A missing path raises `FileNotFoundError`, malformed content
raises `json.JSONDecodeError`; in both cases the memory is untouched. -/
def load (fs : FS) (path : String) (m : ConversationMemory) :
    ConversationMemory × Option PersistError :=
  match fs path with
  | none => (m, some .fileNotFound)
  | some .malformed => (m, some .jsonDecodeError)
  | some (.wellFormed d) =>
    ({ m with metadata := d.metadata.getD [], messages := d.messages.getD [] },
     none)

end ConversationMemory

/-- The newline character. -/
def nlc : Char := Char.ofNat 10

/-- The literal tool-call marker `TOOL_CALL:`. -/
def markerL : List Char := "TOOL_CALL:".toList

/-- Regex `\w` (ASCII part): letters, digits, underscore. -/
def isWordChar (c : Char) : Bool := c.isAlphanum || c == '_'

/-- Python substring test `pat in s`. -/
def containsSub (pat : List Char) : List Char → Bool
  | [] => pat.isEmpty
  | c :: cs => pat.isPrefixOf (c :: cs) || containsSub pat cs

/-- The non-greedy group `(.*?)` followed by `\)`: the characters up to the
first `)`, failing if a newline (which `.` does not match) or the end of the
input comes first.  Returns the group and the remaining input. -/
def takeUntilClose : List Char → Option (List Char × List Char)
  | [] => none
  | c :: cs =>
    if c == ')' then some ([], cs)
    else if c == nlc then none
    else
      match takeUntilClose cs with
      | none => none
      | some (a, r) => some (c :: a, r)

/-- One attempt of the regex `TOOL_CALL:\s*(\w+)\((.*?)\)` anchored at the
start of `cs`: the literal marker, optional whitespace, a nonempty word-char
name, `(`, the non-greedy argument group, `)`.  Returns the two captured
groups and the input remaining after the match. -/
def matchToolCall (cs : List Char) : Option (List Char × List Char × List Char) :=
  if markerL.isPrefixOf cs then
    let cs1 := (cs.drop markerL.length).dropWhile isPyWs
    let nm := cs1.takeWhile isWordChar
    if nm.isEmpty then none
    else
      match cs1.drop nm.length with
      | '(' :: cs2 =>
        match takeUntilClose cs2 with
        | none => none
        | some (args, rest) => some (nm, args, rest)
      | _ => none
  else none

/-- The scan loop of `re.findall`: try a match at every position, left to
right and non-overlapping, advancing one character after a failed attempt.
The fuel is the input length; every step consumes at least one character. -/
def findCallsAux : Nat → List Char → List (List Char × List Char)
  | 0, _ => []
  | _, [] => []
  | Nat.succ n, c :: cs =>
    match matchToolCall (c :: cs) with
    | some (nm, args, rest) => (nm, args) :: findCallsAux n rest
    | none => findCallsAux n cs

/-- Embedding of `re.findall(r'TOOL_CALL:\s*(\w+)\((.*?)\)', response)`: the list of
`(name, arguments)` captures in left-to-right order. -/
def findCalls (cs : List Char) : List (List Char × List Char) :=
  findCallsAux cs.length cs

/-- One iteration of the parameter loop in `Agent._handle_tool_call`:
`if '=' in param`, split on the first `=`, strip whitespace and then
quote-character runs from key and value, assign into the dict; a segment
without `=` leaves the dict unchanged. -/
def paramStep (d : List (List Char × List Char)) (seg : List Char) :
    List (List Char × List Char) :=
  match splitFirstEq seg with
  | none => d
  | some (k, v) =>
    dictInsert d (stripQuotesRun (trimL k)) (stripQuotesRun (trimL v))

/-- Parameter parsing of `Agent._handle_tool_call`: strip the argument
string; if empty the dict is empty; otherwise split on commas and run the
parameter loop over the segments. -/
def parseParams (args : List Char) : List (List Char × List Char) :=
  let a := trimL args
  if a.isEmpty then []
  else (splitListOn ',' a).foldl paramStep []

/-- A tool as the interpreter sees it: a name and an executor over the parsed
string parameters.  `Except.ok s` models a normal return whose
`json.dumps(result, indent=2)` rendering is `s`; `Except.error e` models a
raised exception with message `e` (including `TypeError` on wrong keyword
arguments). -/
structure ToolSpec where
  name : List Char
  exec : List (List Char × List Char) → Except (List Char) (List Char)

/-- The body of the per-call loop in `Agent._handle_tool_call`: resolve the
tool by exact name, parse the parameters, execute, and format the result or
error line. -/
def resultLine (tools : List ToolSpec) (call : List Char × List Char) :
    List Char :=
  match tools.find? (fun t => t.name == call.1) with
  | none => "Error: Tool ".toList ++ [sqc] ++ call.1 ++ [sqc] ++ " not found".toList
  | some t =>
    match t.exec (parseParams call.2) with
    | .ok s => "Tool ".toList ++ call.1 ++ " result: ".toList ++ s
    | .error e => "Error executing ".toList ++ call.1 ++ ": ".toList ++ e

/-- The result-accumulating loop of `Agent._handle_tool_call`: one result
entry per extracted call, in order. -/
def processCalls (tools : List ToolSpec) :
    List (List Char × List Char) → List (List Char)
  | [] => []
  | c :: rest => resultLine tools c :: processCalls tools rest

/-- Embedding of `Agent._handle_tool_call(response)`: extract the calls; with no match
return the response unchanged, otherwise return
`response + "\n\n" + "\n".join(results)`. -/
def handleToolCall (tools : List ToolSpec) (resp : List Char) : List Char :=
  let ms := findCalls resp
  if ms.isEmpty then resp
  else resp ++ [nlc, nlc] ++ List.intercalate [nlc] (processCalls tools ms)

/-- The post-generation step of `Agent.chat` (non-streaming): run the
interpreter only when the roster is nonempty and the marker substring occurs
in the response. -/
def chatPost (tools : List ToolSpec) (resp : String) : String :=
  if tools.isEmpty = false ∧ containsSub markerL resp.toList = true then
    String.mk (handleToolCall tools resp.toList)
  else resp

/-- Embedding of `Agent._stream_response`: yield every provider fragment in order; after
exhaustion, if the roster is nonempty and the concatenation contains the
marker, yield one trailing fragment `"\n\n" + tool_result` and commit the
augmented text, otherwise commit the concatenation as the assistant
message. -/
def streamRun (tools : List ToolSpec) (m : ConversationMemory)
    (chunks : List String) (ts : String) :
    List String × ConversationMemory :=
  let full := String.join chunks
  if tools.isEmpty = false ∧ containsSub markerL full.toList = true then
    let toolResult := String.mk (handleToolCall tools full.toList)
    (chunks ++ [String.mk [nlc, nlc] ++ toolResult],
     m.add_message "assistant" (full ++ String.mk [nlc, nlc] ++ toolResult) ts)
  else (chunks, m.add_message "assistant" full ts)

/-- Embedding of `Agent.chat(message)` (non-streaming), with the provider passed as a
function from the context to `Except` (an exception propagates): append the
user message, generate over the context, post-process tool calls, append the
assistant message. -/
def chatRun (tools : List ToolSpec) (m : ConversationMemory) (userMsg : String)
    (generate : List (String × String) → Except String String) (ts ts2 : String) :
    ConversationMemory × Except String String :=
  let m1 := m.add_message "user" userMsg ts
  match generate m1.get_context with
  | .error e => (m1, .error e)
  | .ok resp =>
    let final := chatPost tools resp
    (m1.add_message "assistant" final ts2, .ok final)

/-- The character allowlist of `CalculatorTool.execute`: the characters of
the Python literal `'0123456789+-*/().() '` (digits, the four operators,
parentheses, dot, space; duplicates in the literal are irrelevant in a set). -/
def allowedChar (c : Char) : Bool :=
  c.isDigit || c == '+' || c == '-' || c == '*' || c == '/' ||
  c == '(' || c == ')' || c == '.' || c == ' '

/-- An exact rational value, kept normalized (coprime numerator and positive
denominator) by construction through `mkQ`.  Python computes `/`, `//` and
`**` involving floats in IEEE-754 doubles; the embedding idealizes every
numeric value as an exact rational (so the int/float distinction and float
rounding are erased).  A hand-rolled type is used instead of `ℚ` so that
every operation reduces structurally inside the kernel. -/
structure PyNum where
  num : Int
  den : Nat
deriving DecidableEq, Repr

/-- Euclidean gcd with explicit fuel (structural recursion, kernel-friendly). -/
def gcdF : Nat → Nat → Nat → Nat
  | 0, a, _ => a
  | Nat.succ f, a, b => if b == 0 then a else gcdF f b (a % b)

/-- Gcd of two naturals; the fuel `a + b + 1` dominates the number of
Euclidean steps. -/
def natGcd (a b : Nat) : Nat := gcdF (a + b + 1) a b

/-- Normalized rational from a numerator and a positive denominator. -/
def mkQ (n : Int) (d : Nat) : PyNum :=
  let g := natGcd n.natAbs d
  if g == 0 then ⟨0, 1⟩ else ⟨n / (g : Int), d / g⟩

/-- Rational addition. -/
def qadd (a b : PyNum) : PyNum :=
  mkQ (a.num * (b.den : Int) + b.num * (a.den : Int)) (a.den * b.den)

/-- Rational subtraction. -/
def qsub (a b : PyNum) : PyNum :=
  mkQ (a.num * (b.den : Int) - b.num * (a.den : Int)) (a.den * b.den)

/-- Rational multiplication. -/
def qmul (a b : PyNum) : PyNum := mkQ (a.num * b.num) (a.den * b.den)

/-- Rational negation. -/
def qneg (a : PyNum) : PyNum := ⟨-a.num, a.den⟩

/-- Rational true division (`/`); only called with a nonzero divisor. -/
def qdiv (a b : PyNum) : PyNum :=
  mkQ (if b.num < 0 then -(a.num * (b.den : Int)) else a.num * (b.den : Int))
    (a.den * b.num.natAbs)

/-- The rational of a natural literal. -/
def qnat (k : Nat) : PyNum := ⟨(k : Int), 1⟩

/-- Natural-number power, structural in the exponent. -/
def npw (b : Nat) : Nat → Nat
  | 0 => 1
  | Nat.succ k => npw b k * b

/-- Integer power, structural in the exponent. -/
def ipow (b : Int) : Nat → Int
  | 0 => 1
  | Nat.succ k => ipow b k * b

/-- Python floor division (`//`) on rationals: the floor of the true
quotient, an integer (Python returns it as an int or an integral float;
the distinction is erased by the idealization).  Only called with a nonzero
divisor. -/
def qfdiv (a b : PyNum) : PyNum :=
  let p := a.num * (b.den : Int)
  let q := (a.den : Int) * b.num
  ⟨if q < 0 then Int.fdiv (-p) (-q) else Int.fdiv p q, 1⟩

/-- Python `**` on rationals.  With an integer-valued exponent the result is
an exact rational (`0` to a negative power raises `ZeroDivisionError`,
modelled as `none`).  A non-integer exponent generally produces an
irrational or complex float, which exact rational arithmetic cannot
represent, so the embedding leaves it out (`none`); this is part of the
stated float idealization. -/
def qpow (a e : PyNum) : Option PyNum :=
  if e.den == 1 then
    if 0 ≤ e.num then
      some (mkQ (ipow a.num e.num.natAbs) (npw a.den e.num.natAbs))
    else if a.num == 0 then none
    else
      let nk := ipow a.num e.num.natAbs
      let dk : Int := (npw a.den e.num.natAbs : Nat)
      some (mkQ (if nk < 0 then -dk else dk) nk.natAbs)
  else none

/-- Tokens of the arithmetic fragment of Python `eval` that the embedding
models: numeric literals (with their exact rational value), `+ - * / // **`,
parentheses. -/
inductive Tok where
  | num : PyNum → Tok
  | plus : Tok
  | minus : Tok
  | star : Tok
  | slash : Tok
  | dstar : Tok
  | dslash : Tok
  | lpar : Tok
  | rpar : Tok
deriving DecidableEq, Repr

/-- Per-character pre-tokens: a digit, a space, a dot (beginning or
continuing a numeric literal), or a single-character operator token
(`**` and `//` are assembled from adjacent characters by the lexer). -/
inductive PreTok where
  | dig : Nat → PreTok
  | sp : PreTok
  | dot : PreTok
  | op : Tok → PreTok
deriving DecidableEq, Repr

/-- Classification of one character of the allowlist; any other character
yields `none`. -/
def classifyChar (c : Char) : Option PreTok :=
  if c.isDigit then some (.dig (c.toNat - 48))
  else if c == ' ' then some .sp
  else if c == '+' then some (.op .plus)
  else if c == '-' then some (.op .minus)
  else if c == '*' then some (.op .star)
  else if c == '/' then some (.op .slash)
  else if c == '(' then some (.op .lpar)
  else if c == ')' then some (.op .rpar)
  else if c == '.' then some .dot
  else none

/-- Tokenizer, first pass: classify each character; any character outside
the allowlist fails. -/
def preTokenize : List Char → Option (List PreTok)
  | [] => some []
  | c :: cs =>
    match classifyChar c, preTokenize cs with
    | some p, some ps => some (p :: ps)
    | _, _ => none

/-- The maximal leading run of digits of a pre-token list, with the rest. -/
def takeDigs : List PreTok → List Nat × List PreTok
  | .dig d :: ps =>
    let r := takeDigs ps
    (d :: r.1, r.2)
  | ps => ([], ps)

/-- The natural number denoted by a digit list, most significant first. -/
def natOfDigits (ds : List Nat) : Nat := ds.foldl (fun a d => a * 10 + d) 0

/-- Python legality of a decimal integer literal: either a single digit, or
a first digit that is nonzero, or all zeros (`00` is legal, `01` is a
`SyntaxError`). -/
def intLitOk : List Nat → Bool
  | [] => false
  | d0 :: rest => if d0 == 0 then rest.all (fun x => x == 0) else true

/-- The exact rational value of a numeral with integer part `ip` and
fractional digits `fs` (e.g. `2.5` is `ip = 2`, `fs = [5]`). -/
def fracVal (ip : Nat) (fs : List Nat) : PyNum :=
  mkQ ((ip * npw 10 fs.length + natOfDigits fs : Nat) : Int) (npw 10 fs.length)

/-- Tokenizer, second pass (the Python lexer on this fragment): skip spaces,
assemble `**` and `//` from adjacent stars and slashes, and assemble numeric
literals from adjacent digits and dots — `12`, `2.5`, `1.` and `.5` are
literals, a bare dot is a `SyntaxError`, and an integer literal with a
leading zero (other than all zeros) is a `SyntaxError`.  The fuel decreases
at every step; `pyEvalArith` supplies one unit per pre-token. -/
def lexAux : Nat → List PreTok → Option (List Tok)
  | 0, _ => none
  | _, [] => some []
  | Nat.succ n, p :: ps =>
    match p with
    | .sp => lexAux n ps
    | .op .star =>
      match ps with
      | .op .star :: ps2 => (lexAux n ps2).map (fun ts => .dstar :: ts)
      | _ => (lexAux n ps).map (fun ts => .star :: ts)
    | .op .slash =>
      match ps with
      | .op .slash :: ps2 => (lexAux n ps2).map (fun ts => .dslash :: ts)
      | _ => (lexAux n ps).map (fun ts => .slash :: ts)
    | .op t => (lexAux n ps).map (fun ts => t :: ts)
    | .dot =>
      let fr := takeDigs ps
      if fr.1.isEmpty then none
      else (lexAux n fr.2).map (fun ts => .num (fracVal 0 fr.1) :: ts)
    | .dig d =>
      let ir := takeDigs ps
      let ds := d :: ir.1
      match ir.2 with
      | .dot :: r2 =>
        let fr := takeDigs r2
        (lexAux n fr.2).map
          (fun ts => .num (fracVal (natOfDigits ds) fr.1) :: ts)
      | _ =>
        if intLitOk ds then
          (lexAux n ir.2).map (fun ts => .num (qnat (natOfDigits ds)) :: ts)
        else none

/-- Recursive-descent evaluator for the modelled fragment of Python `eval`,
with Python precedence and associativity: level 0 parses an expression
(`term ((+|-) term)*`), level 1 a term (`factor ((*|/|∕∕) factor)*` with
`∕∕` standing for floor division), level 2 a factor (`(+|-) factor | power`,
so unary minus binds looser than `**`), level 5 a power
(`atom [** factor]`, right-associative with a signable exponent), level 6
its exponent tail, with `atom := literal | ( expr )`; levels 3 and 4 are the
tail loops carrying the accumulated value in `acc`.  `/` and `//` by zero
and `0` to a negative power fail, as `eval` raises `ZeroDivisionError`.  The
fuel decreases at every recursive call; `pyEvalArith` supplies enough for
any input it accepts. -/
def parseA : Nat → Nat → PyNum → List Tok → Option (PyNum × List Tok)
  | 0, _, _, _ => none
  | Nat.succ n, lvl, acc, ts =>
    if lvl == 2 then
      match ts with
      | .minus :: r =>
        match parseA n 2 (qnat 0) r with
        | some (v, r2) => some (qneg v, r2)
        | none => none
      | .plus :: r => parseA n 2 (qnat 0) r
      | _ => parseA n 5 (qnat 0) ts
    else if lvl == 5 then
      match ts with
      | .num q :: r => parseA n 6 q r
      | .lpar :: r =>
        match parseA n 0 (qnat 0) r with
        | some (v, .rpar :: r2) => parseA n 6 v r2
        | _ => none
      | _ => none
    else if lvl == 6 then
      match ts with
      | .dstar :: r =>
        match parseA n 2 (qnat 0) r with
        | some (e, r2) =>
          match qpow acc e with
          | some w => some (w, r2)
          | none => none
        | none => none
      | _ => some (acc, ts)
    else if lvl == 1 then
      match parseA n 2 (qnat 0) ts with
      | some (v, r) => parseA n 4 v r
      | none => none
    else if lvl == 4 then
      match ts with
      | .star :: r =>
        match parseA n 2 (qnat 0) r with
        | some (w, r2) => parseA n 4 (qmul acc w) r2
        | none => none
      | .slash :: r =>
        match parseA n 2 (qnat 0) r with
        | some (w, r2) =>
          if w.num == 0 then none else parseA n 4 (qdiv acc w) r2
        | none => none
      | .dslash :: r =>
        match parseA n 2 (qnat 0) r with
        | some (w, r2) =>
          if w.num == 0 then none else parseA n 4 (qfdiv acc w) r2
        | none => none
      | _ => some (acc, ts)
    else if lvl == 0 then
      match parseA n 1 (qnat 0) ts with
      | some (v, r) => parseA n 3 v r
      | none => none
    else
      match ts with
      | .plus :: r =>
        match parseA n 1 (qnat 0) r with
        | some (w, r2) => parseA n 3 (qadd acc w) r2
        | none => none
      | .minus :: r =>
        match parseA n 1 (qnat 0) r with
        | some (w, r2) => parseA n 3 (qsub acc w) r2
        | none => none
      | _ => some (acc, ts)

/-- Semantics of Python `eval` on the arithmetic fragment over the
allowlisted characters: integer and float decimal literals, `+ - * / // **`
with Python precedence, unary signs, parentheses and spaces, evaluated in
exact rational arithmetic (the idealization stated at `PyNum`).  `none`
covers everything on which `eval` raises (syntax errors, division by zero,
`0` to a negative power) together with the residue of the idealization:
expressions whose Python value is not an exact rational (a non-integer
exponent giving an irrational or complex float) or is not a number at all
(such as the empty tuple `()`). -/
def pyEvalArith (cs : List Char) : Option PyNum :=
  match preTokenize cs with
  | none => none
  | some ps =>
    match lexAux (ps.length + 1) ps with
    | none => none
    | some ts =>
      match parseA (6 * ts.length + 6) 0 (qnat 0) ts with
      | some (v, []) => some v
      | _ => none

/-- The result dict of `CalculatorTool.execute`: either
`{"success": True, "expression": ..., "result": ...}` or
`{"success": False, "error": ...}`. -/
inductive CalcResult where
  | ok : String → PyNum → CalcResult
  | err : String → CalcResult
deriving DecidableEq, Repr

/-- Embedding of `CalculatorTool.execute(expression)`: inside a catch-all `try`, reject
any expression with a character outside the allowlist, otherwise `eval` it;
an `eval` exception becomes a failure dict (its message, `str(e)`, is
abstracted to a fixed string here since no claim mentions it). -/
def calcExecute (expression : String) : CalcResult :=
  if expression.toList.all allowedChar = false then
    .err "Invalid characters in expression"
  else
    match pyEvalArith expression.toList with
    | some v => .ok expression v
    | none => .err "eval raised"

/-- Removal of one single layer of surrounding quote characters: at most one
leading and at most one trailing quote.  This follows the words of the spec
(`strip ... a single layer of surrounding quote characters`), to be compared
against the source's `str.strip('"\x27')`, which removes whole runs. -/
def stripOneLayer (cs : List Char) : List Char :=
  let b := match cs with
    | c :: rest => if isQuote c then rest else cs
    | [] => []
  match b.reverse with
  | d :: rest2 => if isQuote d then rest2.reverse else b
  | [] => b

/-- The parameter mapping exactly as the claim words it: split on commas,
keep segments with an `=`, split each on the first `=`, strip whitespace and
a SINGLE layer of surrounding quotes from key and value, assign into the
dict. -/
def claimParseParams (args : List Char) : List (List Char × List Char) :=
  let a := trimL args
  if a.isEmpty then []
  else
    ((splitListOn ',' a).filterMap (fun seg =>
        (splitFirstEq seg).map (fun kv =>
          (stripOneLayer (trimL kv.1), stripOneLayer (trimL kv.2))))).foldl
      (fun d kv => dictInsert d kv.1 kv.2) []

/-- The parameter mapping as the amended claim words it: as above but
stripping whole runs of surrounding quote characters, matching
`str.strip('"\x27')`. -/
def amendedParseParams (args : List Char) : List (List Char × List Char) :=
  let a := trimL args
  if a.isEmpty then []
  else
    ((splitListOn ',' a).filterMap (fun seg =>
        (splitFirstEq seg).map (fun kv =>
          (stripQuotesRun (trimL kv.1), stripQuotesRun (trimL kv.2))))).foldl
      (fun d kv => dictInsert d kv.1 kv.2) []

/-- The argument string `v=\x27\x271\x27\x27` (a value wrapped in two layers
of single quotes), distinguishing run-stripping from single-layer
stripping. -/
def argsDoubleQuoted : List Char := "v=".toList ++ [sqc, sqc, '1', sqc, sqc]

/-- A concrete roster with one tool whose execution always raises. -/
def toolBoom : ToolSpec :=
  ⟨"boom".toList, fun _ => .error "kaput".toList⟩

/-- A concrete memory with `max_history = 1` holding two messages. -/
def memW : ConversationMemory :=
  ⟨1, [⟨"system", "s", "t1"⟩, ⟨"user", "u", "t2"⟩],
   [("created_at", "t0"), ("updated_at", "t2")]⟩

/-- A concrete memory with two messages, standing for the conversation that
`examples.py` saves. -/
def memC6 : ConversationMemory :=
  ⟨10, [⟨"system", "s", "t1"⟩, ⟨"user", "hello", "t2"⟩],
   [("created_at", "t0"), ("updated_at", "t2")]⟩

/-- The empty file system. -/
def emptyFS : FS := fun _ => none

/-- A file system holding one malformed file at `data/bad.json`. -/
def fsMalformed : FS :=
  fun q => if q == "data/bad.json" then some .malformed else none

/-- A concrete response with two tool calls. -/
def respC4 : List Char :=
  "TOOL_CALL: alpha(x=1) then TOOL_CALL: beta(y=2)".toList

/-- The per-call loop produces exactly one result entry per extracted call,
independently of the other calls. -/
theorem processCalls_eq_map (tools : List ToolSpec)
    (calls : List (List Char × List Char)) :
    processCalls tools calls = calls.map (resultLine tools) := by
  induction calls with
  | nil => rfl
  | cons c rest ih => simp [processCalls, ih]

/-- A character the fragment tokenizer accepts is on the calculator
allowlist. -/
theorem classifyChar_allowed (c : Char) (p : PreTok)
    (h : classifyChar c = some p) : allowedChar c = true := by
  unfold classifyChar at h
  unfold allowedChar
  split_ifs at h with h1 h2 h3 h4 h5 h6 h7 h8 <;> simp_all

/-- A string the fragment tokenizer accepts consists of allowlisted
characters only. -/
theorem preTokenize_allowed :
    ∀ (cs : List Char) (ps : List PreTok),
      preTokenize cs = some ps → cs.all allowedChar = true := by
  intro cs
  induction cs with
  | nil => intro ps _; rfl
  | cons c rest ih =>
    intro ps h
    cases hc : classifyChar c with
    | none => rw [preTokenize, hc] at h; simp at h
    | some p =>
      cases hp : preTokenize rest with
      | none => rw [preTokenize, hc, hp] at h; simp at h
      | some qs =>
        simp [List.all_cons, classifyChar_allowed c p hc, ih qs hp]

/-- Rebuilding a string from its characters is the identity. -/
theorem mk_toList (s : String) : String.mk s.toList = s := rfl

/-- The message just appended by `add_message` is always the last stored
message: the `[-0:]` quirk keeps everything, and a positive slice keeps a
nonempty suffix ending in the new message. -/
theorem add_message_getLast (m : ConversationMemory) (r c t : String) :
    (m.add_message r c t).messages.getLast? = some ⟨r, c, t⟩ := by
  unfold ConversationMemory.add_message
  by_cases hlen :
      (m.messages ++ [(⟨r, c, t⟩ : Message)]).length > m.max_history * 2
  · simp only [hlen, if_true]
    unfold ConversationMemory.sliceLast
    by_cases hk : m.max_history * 2 = 0
    · simp [hk]
    · have hk2 : (m.max_history * 2 == 0) = false := by
        simpa using hk
      simp only [hk2, Bool.false_eq_true, if_false]
      have hle : (m.messages ++ [(⟨r, c, t⟩ : Message)]).length -
          m.max_history * 2 ≤ m.messages.length := by
        simp only [List.length_append, List.length_singleton]
        omega
      rw [List.drop_append_of_le_length hle]
      exact List.getLast?_concat _
  · simp only [hlen, if_false]
    exact List.getLast?_concat _

/-- C1, amended to `max_history ≥ 1`.  After any `add_message` on a memory
with positive capacity, the stored length is at most `2 * max_history`; and
whenever the append exceeds the cap, exactly the most recent
`2 * max_history` messages are kept, in stored order, by a purely positional
drop from the front (no role, including `system`, is protected). -/
theorem c1_trim_invariant (m : ConversationMemory) (role content ts : String)
    (h : 1 ≤ m.max_history) :
    (m.add_message role content ts).messages.length ≤ m.max_history * 2 ∧
    (m.max_history * 2 < m.messages.length + 1 →
      (m.add_message role content ts).messages =
        (m.messages ++ [(⟨role, content, ts⟩ : Message)]).drop
          (m.messages.length + 1 - m.max_history * 2)) := by
  unfold ConversationMemory.add_message
  have hlen : (m.messages ++ [(⟨role, content, ts⟩ : Message)]).length =
      m.messages.length + 1 := by
    simp
  by_cases hgt :
      (m.messages ++ [(⟨role, content, ts⟩ : Message)]).length >
        m.max_history * 2
  · simp only [hgt, if_true]
    have hk2 : (m.max_history * 2 == 0) = false := by
      simp only [beq_eq_false_iff_ne, ne_eq]
      omega
    unfold ConversationMemory.sliceLast
    simp only [hk2, Bool.false_eq_true, if_false]
    constructor
    · rw [List.length_drop]
      omega
    · intro _
      rw [hlen]
  · simp only [hgt, if_false]
    constructor
    · omega
    · intro hgt2
      omega

/-- C1 as stated fails at capacity 0: Python `messages[-0:]` is the whole
list, so nothing is ever trimmed and two appends leave two stored messages,
above the claimed bound `2 * max_history = 0`. -/
theorem c1_counterexample :
    ¬ ((((ConversationMemory.init 0 "t0").add_message "system" "s" "t1").add_message
          "user" "u" "t2").messages.length ≤
        (((ConversationMemory.init 0 "t0").add_message "system" "s" "t1").add_message
          "user" "u" "t2").max_history * 2) := by decide

/-- Witness for `c1_trim_invariant` at a concrete capacity-1 memory: the cap
holds and the front (system) message is evicted. -/
theorem c1_trim_invariant_witness :
    (memW.add_message "assistant" "a" "t3").messages.length ≤
        memW.max_history * 2 ∧
    (memW.add_message "assistant" "a" "t3").messages =
      (memW.messages ++ [(⟨"assistant", "a", "t3"⟩ : Message)]).drop
        (memW.messages.length + 1 - memW.max_history * 2) :=
  ⟨(c1_trim_invariant memW "assistant" "a" "t3" (by decide)).1,
   (c1_trim_invariant memW "assistant" "a" "t3" (by decide)).2 (by decide)⟩

/-- C2: the calculator rejects any expression with a character outside the
allowlist with a failure dict and without evaluating; and every arithmetic
expression `eval` accepts over the allowlist — integer and float decimal
literals, `+ - * / // **`, unary signs, parentheses, spaces, with numeric
values idealized as exact rationals per `PyNum` — passes the allowlist and
yields a success dict with the evaluated value.  The embedding is total,
matching the catch-all `try` that prevents `execute` from raising. -/
theorem c2_calculator_safe (s : String) (v : PyNum) :
    (s.toList.all allowedChar = false →
      calcExecute s = .err "Invalid characters in expression") ∧
    (pyEvalArith s.toList = some v → calcExecute s = .ok s v) := by
  constructor
  · intro hbad
    unfold calcExecute
    rw [if_pos hbad]
  · intro h
    cases hpt : preTokenize s.toList with
    | none => rw [pyEvalArith, hpt] at h; simp at h
    | some ps =>
      have hall := preTokenize_allowed _ _ hpt
      unfold calcExecute
      rw [if_neg (by rw [hall]; simp), h]

/-- Witness for `c2_calculator_safe`: a concrete valid expression succeeds
with the right value, and a concrete letter-containing expression fails. -/
theorem c2_calculator_safe_witness :
    calcExecute "2 + 3 * 4" = .ok "2 + 3 * 4" (qnat 14) ∧
    calcExecute "2.5 + 1" = .ok "2.5 + 1" ⟨7, 2⟩ ∧
    calcExecute "2**3" = .ok "2**3" (qnat 8) ∧
    calcExecute "7//2" = .ok "7//2" (qnat 3) ∧
    calcExecute "2+x" = .err "Invalid characters in expression" :=
  ⟨(c2_calculator_safe "2 + 3 * 4" (qnat 14)).2 (by decide),
   (c2_calculator_safe "2.5 + 1" ⟨7, 2⟩).2 (by decide),
   (c2_calculator_safe "2**3" (qnat 8)).2 (by decide),
   (c2_calculator_safe "7//2" (qnat 3)).2 (by decide),
   (c2_calculator_safe "2+x" (qnat 14)).1 (by decide)⟩

/-- C3: every extracted call produces exactly one result entry and the
remaining calls are still processed (the loop is a map); an unknown name
produces the `Error: Tool '<name>' not found` line; a raising executor
produces the `Error executing <name>: <message>` line.  All three branches
return lines instead of propagating, so tool handling never raises. -/
theorem c3_tool_resolution (tools : List ToolSpec)
    (calls : List (List Char × List Char)) (nm args e : List Char)
    (t : ToolSpec) :
    (processCalls tools calls = calls.map (resultLine tools)) ∧
    (tools.find? (fun t2 => t2.name == nm) = none →
      resultLine tools (nm, args) =
        "Error: Tool ".toList ++ [sqc] ++ nm ++ [sqc] ++ " not found".toList) ∧
    (tools.find? (fun t2 => t2.name == nm) = some t →
      t.exec (parseParams args) = .error e →
      resultLine tools (nm, args) =
        "Error executing ".toList ++ nm ++ ": ".toList ++ e) := by
  refine ⟨processCalls_eq_map tools calls, ?_, ?_⟩
  · intro hf
    simp [resultLine, hf]
  · intro hf he
    simp [resultLine, hf, he]

/-- Witness for `c3_tool_resolution`: with a roster holding only a raising
tool `boom`, an unknown name yields the not-found line and `boom` itself
yields the executing-error line. -/
theorem c3_tool_resolution_witness :
    resultLine [toolBoom] ("nope".toList, []) =
      "Error: Tool ".toList ++ [sqc] ++ "nope".toList ++ [sqc] ++
        " not found".toList ∧
    resultLine [toolBoom] ("boom".toList, []) =
      "Error executing ".toList ++ "boom".toList ++ ": ".toList ++
        "kaput".toList :=
  ⟨(c3_tool_resolution [toolBoom] [] "nope".toList [] [] toolBoom).2.1 rfl,
   (c3_tool_resolution [toolBoom] [] "boom".toList [] "kaput".toList
      toolBoom).2.2 rfl rfl⟩

/-- C4: whenever at least one call is extracted, the interpreter returns the
original response unchanged, then one blank line, then the per-call result
entries joined by newlines, in extraction (left-to-right) order. -/
theorem c4_augmented_output (tools : List ToolSpec) (resp : List Char)
    (h : findCalls resp ≠ []) :
    handleToolCall tools resp =
      resp ++ [nlc, nlc] ++
        List.intercalate [nlc] ((findCalls resp).map (resultLine tools)) := by
  have hne : (findCalls resp).isEmpty = false := by
    cases hfc : findCalls resp with
    | nil => exact absurd hfc h
    | cons a l => rfl
  simp [handleToolCall, hne, processCalls_eq_map]

/-- Witness for `c4_augmented_output` on a concrete two-call response. -/
theorem c4_augmented_output_witness :
    handleToolCall [] respC4 =
      respC4 ++ [nlc, nlc] ++
        List.intercalate [nlc] ((findCalls respC4).map (resultLine [])) :=
  c4_augmented_output [] respC4 (by decide)

/-- The parameter loop is the fold of single-pair insertions over the
segments that contain `=`, transformed by whitespace- and quote-run
stripping. -/
theorem paramStep_foldl (segs : List (List Char))
    (d : List (List Char × List Char)) :
    segs.foldl paramStep d
    = (segs.filterMap (fun seg =>
        (splitFirstEq seg).map (fun kv =>
          (stripQuotesRun (trimL kv.1), stripQuotesRun (trimL kv.2))))).foldl
        (fun d2 kv => dictInsert d2 kv.1 kv.2) d := by
  induction segs generalizing d with
  | nil => rfl
  | cons seg rest ih =>
    rcases hse : splitFirstEq seg with _ | ⟨k, v⟩
    · simp [paramStep, hse, ih]
    · simp [paramStep, hse, ih]

/-- C5, amended: the parsed mapping strips whitespace and then the whole
surrounding runs of quote characters (Python `str.strip('"\x27')`), not a
single layer; the rest of the claim (comma split, first-`=` split, silent
drop of `=`-free segments, no coercion, empty argument string) is as
stated. -/
theorem c5_param_parsing_amended (args : List Char) :
    parseParams args = amendedParseParams args := by
  by_cases h : (trimL args).isEmpty
  · simp [parseParams, amendedParseParams, h]
  · simp [parseParams, amendedParseParams, h, paramStep_foldl]

/-- C5 as stated fails on a doubly-quoted value: the source strips the whole
quote run (`''1''` becomes `1`), while the claimed single-layer strip would
leave `'1'`. -/
theorem c5_counterexample :
    parseParams argsDoubleQuoted ≠ claimParseParams argsDoubleQuoted ∧
    parseParams argsDoubleQuoted = [("v".toList, "1".toList)] ∧
    claimParseParams argsDoubleQuoted =
      [("v".toList, [sqc] ++ "1".toList ++ [sqc])] := by decide

/-- For every path with a directory component, saving and then loading into
any fresh memory replaces its metadata and messages with the saved ones
(the round-trip law behind C6). -/
theorem save_then_load (fs : FS) (p : String) (m fresh0 : ConversationMemory)
    (h : hasDirPart p = true) :
    fresh0.load (m.save fs p).1 p =
      ({ fresh0 with metadata := m.metadata, messages := m.messages }, none) := by
  unfold ConversationMemory.save
  rw [if_pos h]
  unfold ConversationMemory.load
  simp

/-- C6 fails as a code bug on the repository's own usage: saving to the bare
filename `example_conversation.json` (exactly the call in `examples.py`)
raises `FileNotFoundError` from `os.makedirs('')` before anything is
written, so the subsequent load finds no file and reproduces nothing; with a
directory component (as `main.py` and `app.py` use) the round trip does
reproduce the messages. -/
theorem c6_save_load_roundtrip :
    (memC6.save emptyFS "example_conversation.json").2 = some .fileNotFound ∧
    (memC6.save emptyFS "example_conversation.json").1
        "example_conversation.json" = none ∧
    ((ConversationMemory.init 10 "t9").load
        (memC6.save emptyFS "example_conversation.json").1
        "example_conversation.json").2 = some .fileNotFound ∧
    ((ConversationMemory.init 10 "t9").load
        (memC6.save emptyFS "example_conversation.json").1
        "example_conversation.json").1.messages = [] ∧
    ((ConversationMemory.init 10 "t9").load
        (memC6.save emptyFS "conversations/conv.json").1
        "conversations/conv.json").1.messages = memC6.messages := by decide

/-- C7: `load` of a missing path fails with the not-found error, `load` of
malformed content fails with the parse error, and in both cases the memory
is returned unchanged; on success the previous metadata and messages are
replaced wholesale by the file contents (with `{}` / `[]` for missing keys),
with no merging. -/
theorem c7_load_failure_and_replace (fs : FS) (p : String)
    (m : ConversationMemory) (d : SaveData) :
    (fs p = none → m.load fs p = (m, some .fileNotFound)) ∧
    (fs p = some .malformed → m.load fs p = (m, some .jsonDecodeError)) ∧
    (fs p = some (.wellFormed d) →
      m.load fs p =
        ({ m with metadata := d.metadata.getD [],
                  messages := d.messages.getD [] }, none)) := by
  refine ⟨?_, ?_, ?_⟩ <;> intro hf <;> unfold ConversationMemory.load <;>
    rw [hf]

/-- Witness for `c7_load_failure_and_replace`: a concrete malformed file and
a concrete missing path, both leaving the fresh memory unchanged. -/
theorem c7_load_failure_and_replace_witness :
    (ConversationMemory.init 5 "t0").load fsMalformed "data/bad.json" =
      (ConversationMemory.init 5 "t0", some .jsonDecodeError) ∧
    (ConversationMemory.init 5 "t0").load fsMalformed "data/missing.json" =
      (ConversationMemory.init 5 "t0", some .fileNotFound) :=
  ⟨(c7_load_failure_and_replace fsMalformed "data/bad.json"
      (ConversationMemory.init 5 "t0") ⟨none, none⟩).2.1 rfl,
   (c7_load_failure_and_replace fsMalformed "data/missing.json"
      (ConversationMemory.init 5 "t0") ⟨none, none⟩).1 rfl⟩

/-- C8: when the response contains no `TOOL_CALL:` substring, or contains
the substring but the pattern matches zero times, the chat post-processing
returns the provider text unchanged (no error line, no tool executed). -/
theorem c8_passthrough (tools : List ToolSpec) (resp : String)
    (h : containsSub markerL resp.toList = false ∨ findCalls resp.toList = []) :
    chatPost tools resp = resp := by
  rcases h with h | h
  · unfold chatPost
    rw [if_neg]
    intro hc
    rw [h] at hc
    simp at hc
  · by_cases hc : tools.isEmpty = false ∧ containsSub markerL resp.toList = true
    · unfold chatPost
      rw [if_pos hc]
      have he : (findCalls resp.toList).isEmpty = true := by
        rw [h]; rfl
      unfold handleToolCall
      rw [if_pos he]
      exact mk_toList resp
    · unfold chatPost
      rw [if_neg hc]

/-- Witness for `c8_passthrough`: a marker-free response, and a response
where the marker occurs but the parenthesized pattern never matches, both
pass through unchanged even with a nonempty roster. -/
theorem c8_passthrough_witness :
    chatPost [toolBoom] "plain hello" = "plain hello" ∧
    chatPost [toolBoom] "TOOL_CALL: boom but no parens" =
      "TOOL_CALL: boom but no parens" :=
  ⟨c8_passthrough [toolBoom] "plain hello" (Or.inl (by decide)),
   c8_passthrough [toolBoom] "TOOL_CALL: boom but no parens"
     (Or.inr (by decide))⟩

/-- C9: when the concatenation of the provider fragments contains no
tool-call marker, streaming yields exactly the fragments, in order, and
nothing else, and commits exactly one assistant message whose content is the
concatenation (it is the last stored message). -/
theorem c9_stream_no_tool (tools : List ToolSpec) (m : ConversationMemory)
    (chunks : List String) (ts : String)
    (h : containsSub markerL (String.join chunks).toList = false) :
    streamRun tools m chunks ts =
      (chunks, m.add_message "assistant" (String.join chunks) ts) ∧
    (streamRun tools m chunks ts).2.messages.getLast? =
      some ⟨"assistant", String.join chunks, ts⟩ := by
  have h1 : streamRun tools m chunks ts =
      (chunks, m.add_message "assistant" (String.join chunks) ts) := by
    unfold streamRun
    rw [if_neg]
    intro hc
    rw [h] at hc
    simp at hc
  exact ⟨h1, by rw [h1]; exact add_message_getLast m "assistant" _ ts⟩

/-- Witness for `c9_stream_no_tool` on the spec's own example: fragments
`["Hel", "lo"]` are yielded as-is and `Hello` is committed. -/
theorem c9_stream_no_tool_witness :
    streamRun [toolBoom] memW ["Hel", "lo"] "t3" =
      (["Hel", "lo"],
       memW.add_message "assistant" (String.join ["Hel", "lo"]) "t3") :=
  (c9_stream_no_tool [toolBoom] memW ["Hel", "lo"] "t3" (by decide)).1

/-- C10: the user message is appended before the provider call, so when the
provider raises, the error propagates while the memory keeps the appended
user message as its (unanswered) last message — no rollback. -/
theorem c10_user_message_retained (tools : List ToolSpec)
    (m : ConversationMemory) (userMsg : String)
    (gen : List (String × String) → Except String String) (ts ts2 e : String)
    (h : gen ((m.add_message "user" userMsg ts).get_context) = .error e) :
    chatRun tools m userMsg gen ts ts2 =
      (m.add_message "user" userMsg ts, .error e) ∧
    (chatRun tools m userMsg gen ts ts2).1.messages.getLast? =
      some ⟨"user", userMsg, ts⟩ := by
  have h1 : chatRun tools m userMsg gen ts ts2 =
      (m.add_message "user" userMsg ts, .error e) := by
    simp only [chatRun, h]
  exact ⟨h1, by rw [h1]; exact add_message_getLast m "user" userMsg ts⟩

/-- Witness for `c10_user_message_retained` with a provider that always
raises. -/
theorem c10_user_message_retained_witness :
    chatRun [] (ConversationMemory.init 10 "t0") "hi"
        (fun _ => Except.error "boom") "t1" "t2" =
      ((ConversationMemory.init 10 "t0").add_message "user" "hi" "t1",
       Except.error "boom") :=
  (c10_user_message_retained [] (ConversationMemory.init 10 "t0") "hi"
    (fun _ => Except.error "boom") "t1" "t2" "boom" rfl).1

end AgentSpec

section ConcreteEvaluations

example :
    ((AgentSpec.ConversationMemory.init 1 "t0").add_message "system" "s" "t1"
      |>.add_message "user" "u" "t2"
      |>.add_message "assistant" "a" "t3").messages.map (fun m => m.content)
    = ["u", "a"] := by decide

example :
    ((AgentSpec.ConversationMemory.init 0 "t0").add_message "system" "s" "t1"
      |>.add_message "user" "u" "t2").messages.length = 2 := by decide

example :
    AgentSpec.findCalls "hi TOOL_CALL: calc(x=1, y=2) bye".toList
    = [("calc".toList, "x=1, y=2".toList)] := by decide

example :
    AgentSpec.findCalls "TOOL_CALL: a(p=1) and TOOL_CALL: b(q=2)".toList
    = [("a".toList, "p=1".toList), ("b".toList, "q=2".toList)] := by decide

example : AgentSpec.findCalls "TOOL_CALL: oops no parens".toList = [] := by
  decide

example :
    AgentSpec.parseParams "x=1, y = 2".toList
    = [("x".toList, "1".toList), ("y".toList, "2".toList)] := by decide

example :
    AgentSpec.parseParams (["v=".toList, [AgentSpec.sqc], [AgentSpec.sqc],
      "1".toList, [AgentSpec.sqc], [AgentSpec.sqc]]).flatten
    = [("v".toList, "1".toList)] := by decide

example : AgentSpec.parseParams "  ".toList = [] := by decide

example : AgentSpec.parseParams "novalue, x=3".toList
    = [("x".toList, "3".toList)] := by decide

example : AgentSpec.pyEvalArith "2 + 3 * 4".toList
    = some (AgentSpec.qnat 14) := by decide

example : AgentSpec.pyEvalArith "(1 + 2) * 3".toList
    = some (AgentSpec.qnat 9) := by decide

example : AgentSpec.pyEvalArith "--5".toList = some (AgentSpec.qnat 5) := by
  decide

example : AgentSpec.pyEvalArith "7 / 2".toList = some ⟨7, 2⟩ := by decide

example : AgentSpec.pyEvalArith "1 / 0".toList = none := by decide

example : AgentSpec.pyEvalArith "12  3".toList = none := by decide

example : AgentSpec.pyEvalArith "123".toList = some (AgentSpec.qnat 123) := by
  decide

example : AgentSpec.pyEvalArith "10 - 2 - 3".toList
    = some (AgentSpec.qnat 5) := by decide

example : AgentSpec.pyEvalArith "2.5 + 1".toList = some ⟨7, 2⟩ := by decide

example : AgentSpec.pyEvalArith "2**3".toList = some (AgentSpec.qnat 8) := by
  decide

example : AgentSpec.pyEvalArith "7//2".toList = some (AgentSpec.qnat 3) := by
  decide

example : AgentSpec.pyEvalArith "-7//2".toList = some ⟨-4, 1⟩ := by decide

example : AgentSpec.pyEvalArith "7//-2".toList = some ⟨-4, 1⟩ := by decide

example : AgentSpec.pyEvalArith "7.5 // 2".toList
    = some (AgentSpec.qnat 3) := by decide

example : AgentSpec.pyEvalArith "2**-2".toList = some ⟨1, 4⟩ := by decide

example : AgentSpec.pyEvalArith "-2**2".toList = some ⟨-4, 1⟩ := by decide

example : AgentSpec.pyEvalArith "(-2)**2".toList
    = some (AgentSpec.qnat 4) := by decide

example : AgentSpec.pyEvalArith "2 ** 3 ** 2".toList
    = some (AgentSpec.qnat 512) := by decide

example : AgentSpec.pyEvalArith "2**(4//2)".toList
    = some (AgentSpec.qnat 4) := by decide

example : AgentSpec.pyEvalArith ".5 + 1.".toList = some ⟨3, 2⟩ := by decide

example : AgentSpec.pyEvalArith "01.5".toList = some ⟨3, 2⟩ := by decide

example : AgentSpec.pyEvalArith "00".toList = some (AgentSpec.qnat 0) := by
  decide

example : AgentSpec.pyEvalArith "01".toList = none := by decide

example : AgentSpec.pyEvalArith "2 * * 3".toList = none := by decide

example : AgentSpec.pyEvalArith "2**3".toList
    ≠ AgentSpec.pyEvalArith "2 * * 3".toList := by decide

example : AgentSpec.pyEvalArith "7 / / 2".toList = none := by decide

example : AgentSpec.pyEvalArith "4**0.5".toList = none := by decide

example : AgentSpec.pyEvalArith "0**-1".toList = none := by decide

example : AgentSpec.pyEvalArith "7 // 0".toList = none := by decide

example : AgentSpec.pyEvalArith "1 .5".toList = none := by decide

example : AgentSpec.pyEvalArith "1..5".toList = none := by decide

example : AgentSpec.pyEvalArith "0.1 + 0.2".toList = some ⟨3, 10⟩ := by decide

example :
    AgentSpec.calcExecute "2.5 + 1" = .ok "2.5 + 1" ⟨7, 2⟩ := by decide

example :
    AgentSpec.calcExecute "2+a" = .err "Invalid characters in expression" := by
  decide

example : AgentSpec.calcExecute "45 * 67" = .ok "45 * 67" (AgentSpec.qnat 3015) := by
  decide

end ConcreteEvaluations
